import Mathlib

/-!
# The application registry adapter (`src/AppLibrary.h`)

A shallow embedding of the two classes of `AppLibrary.h`:

* `AppLoadApplication`, the descriptor object handed to the presentation layer;
* `AppLoadLibrary`, the adapter that owns a `QList<AppLoadApplication *>` and forwards
  commands to the `appload::library` collaborator.

The collaborator (`library.h`) is not part of the sources, so everything the adapter calls in
it is a field of the structure `Library`, which every operation takes as a parameter.

Descriptor objects live on a heap: the adapter holds pointers, `new` allocates a cell that no
earlier object ever had, `delete` kills a cell, and deleting a pointer that is not a live
object is undefined behaviour, which the embedding reports as `none`.
-/

namespace AppLoad

/-! ## Constants -/

/-- The constant `#define INTERNAL 0`. -/
def INTERNAL : Int := 0

/-- The constant `#define EXTERNAL_NOGUI 1`. -/
def EXTERNAL_NOGUI : Int := 1

/-- The constant `#define EXTERNAL_QTFB 2`. -/
def EXTERNAL_QTFB : Int := 2

/-- The constant `#define EXTERNAL_TERMINAL 3`. -/
def EXTERNAL_TERMINAL : Int := 3

/-! ## What the adapter sees of the library collaborator -/

/-- The value the adapter reads through `entry.second->` for an entry of `getRef()`: the
results of the five getters called in the first loop of `loadList`. -/
structure LoadedApplication where
  getID : String
  getAppName : String
  getIconPath : String
  supportsScaling : Bool
  canHaveMultipleFrontends : Bool
deriving DecidableEq

/-- The value the adapter reads through `entry.second->` for an entry of `getExternals()`: the
results of the five getters called in the second loop of `loadList`. The type `A` stands for
`appload::library::AspectRatio`. -/
structure ExternalApplication (A : Type) where
  getAppName : String
  getIconPath : String
  isQTFB : Bool
  getAspectRatio : A
  disablesWindowedMode : Bool
deriving DecidableEq

/-- What `appload::library::get` hands back when it finds an application: an object of which
the adapter only calls `isFrontendRunning()`. -/
structure FrontendHandle where
  isFrontendRunning : Bool
deriving DecidableEq

/-- The `appload::library` collaborator, over its own state `S` and its aspect-ratio type `A`.
Registries are maps, given as the list of their `(key, value)` pairs in iteration order.
`launch e k` is `e->launch(k)` for an external entry `e`: it yields a process id and may change
the collaborator's state. -/
structure Library (S A : Type) where
  loadApplications : S → Int × S
  getRef : S → List (String × LoadedApplication)
  getExternals : S → List (String × ExternalApplication A)
  get : S → String → Option FrontendHandle
  launch : ExternalApplication A → Int → S → Int × S
  terminateExternal : Int → S → S
  AUTO : A
  aspectRatioToString : A → String

/-- The lookup `m.find(key)` on a map given by its pairs; `none` is `m.end()`. -/
def find {V : Type} (m : List (String × V)) (key : String) : Option (String × V) :=
  m.find? (fun entry => entry.1 == key)

/-! ## The descriptor object -/

/-- The private fields of `AppLoadApplication`, as set by its eight-argument constructor. -/
structure AppLoadApplication (A : Type) where
  _id : String
  _name : String
  _icon : String
  _supportsScaling : Bool
  _canHaveMultipleFrontends : Bool
  _externalType : Int
  _aspectRatio : A
  _disablesWindowedMode : Bool
deriving DecidableEq

namespace AppLoadApplication

variable {S A : Type}

/-- The getter `QString id() const`. -/
def id (d : AppLoadApplication A) : String := d._id

/-- The getter `QString name() const`. -/
def name (d : AppLoadApplication A) : String := d._name

/-- The getter `QString icon() const`. -/
def icon (d : AppLoadApplication A) : String := d._icon

/-- The getter `QString aspectRatio() const`: the stored ratio through `aspectRatioToString`. -/
def aspectRatio (lib : Library S A) (d : AppLoadApplication A) : String :=
  lib.aspectRatioToString d._aspectRatio

/-- The getter `bool supportsScaling() const`. -/
def supportsScaling (d : AppLoadApplication A) : Bool := d._supportsScaling

/-- The getter `bool canHaveMultipleFrontends() const`. -/
def canHaveMultipleFrontends (d : AppLoadApplication A) : Bool := d._canHaveMultipleFrontends

/-- The getter `int externalType() const`. -/
def externalType (d : AppLoadApplication A) : Int := d._externalType

/-- The getter `bool disablesWindowedMode() const`. -/
def disablesWindowedMode (d : AppLoadApplication A) : Bool := d._disablesWindowedMode

end AppLoadApplication

/-! ## The heap of descriptor objects -/

/-- A pointer to an `AppLoadApplication`: `none` is `nullptr`, `some a` is the object
allocated as the `a`-th one. -/
abbrev Ptr := Option Nat

/-- The heap: cell `a` is `some d` while object `a` is alive with contents `d`, and `none`
once it has been deleted. Cells are never reused, so a cell index identifies an object. -/
abbrev Heap (A : Type) := List (Option (AppLoadApplication A))

/-- Whether `a` is a live object of the heap. -/
def isLive {A : Type} (heap : Heap A) (a : Nat) : Bool :=
  match heap[a]? with
  | some (some _) => true
  | _ => false

/-- Reading through a pointer: the object's contents, or `none` for a null, dangling or wild
pointer. -/
def deref {A : Type} (heap : Heap A) (p : Ptr) : Option (AppLoadApplication A) :=
  match p with
  | none => none
  | some a => (heap[a]?).join

/-- The operator `delete p`: nothing for `nullptr`, kills the cell of a live object, and is
undefined behaviour (`none`) for any other pointer. -/
def delete {A : Type} (heap : Heap A) (p : Ptr) : Option (Heap A) :=
  match p with
  | none => some heap
  | some a => if isLive heap a then some (heap.set a none) else none

/-- The Qt helper `qDeleteAll(list)`: `delete` on every element, first to last. -/
def qDeleteAll {A : Type} : List Ptr → Heap A → Option (Heap A)
  | [], heap => some heap
  | p :: ps, heap =>
    match delete heap p with
    | some heap1 => qDeleteAll ps heap1
    | none => none

/-! ## The adapter -/

/-- What the adapter does to the outside: the calls into the collaborator that can have an
effect there, and the signal it emits. -/
inductive Event (A : Type) where
  | loadApplications
  | launch (entry : ExternalApplication A) (qtfbKey : Int)
  | terminateExternal (pid : Int)
  | applicationsChanged
deriving DecidableEq

/-- The state the operations of `AppLoadLibrary` run in: the collaborator's state, the record
of outside effects so far, the heap of descriptor objects and the adapter's one data member,
`QList<AppLoadApplication *> _applications`. -/
structure State (S A : Type) where
  library : S
  trace : List (Event A)
  heap : Heap A
  _applications : List Ptr
deriving DecidableEq

/-- A slot connected to `applicationsChanged`; it runs inside `emit`. -/
abbrev Slot (S A : Type) := State S A → Option (State S A)

/-- The `QQmlListProperty` handed to the callbacks. Of its `object` member only the outcome of
`qobject_cast<AppLoadLibrary *>(list->object)` matters: `true` when it is the adapter. -/
structure QQmlListProperty where
  objectIsAdapter : Bool
deriving DecidableEq

variable {S A : Type}

/-- The descriptor built in the first loop of `loadList`. -/
def internalDescriptor (lib : Library S A) (entry : String × LoadedApplication) :
    AppLoadApplication A :=
  { _id := entry.2.getID
    _name := entry.2.getAppName
    _icon := entry.2.getIconPath
    _supportsScaling := entry.2.supportsScaling
    _canHaveMultipleFrontends := entry.2.canHaveMultipleFrontends
    _externalType := INTERNAL
    _aspectRatio := lib.AUTO
    _disablesWindowedMode := false }

/-- The descriptor built in the second loop of `loadList`. -/
def externalDescriptor (entry : String × ExternalApplication A) : AppLoadApplication A :=
  { _id := entry.1
    _name := entry.2.getAppName
    _icon := entry.2.getIconPath
    _supportsScaling := false
    _canHaveMultipleFrontends := true
    _externalType := if entry.2.isQTFB then EXTERNAL_QTFB else EXTERNAL_NOGUI
    _aspectRatio := entry.2.getAspectRatio
    _disablesWindowedMode := entry.2.disablesWindowedMode }

/-- The statement `_applications.append(new AppLoadApplication(...))`: allocate the object in
a fresh cell and append the pointer to it. -/
def appendNew (s : State S A) (d : AppLoadApplication A) : State S A :=
  { s with heap := s.heap ++ [some d], _applications := s._applications ++ [some s.heap.length] }

/-- The member `void clearApplications()`: `qDeleteAll(_applications)`, then
`_applications.clear()`. -/
def clearApplications (s : State S A) : Option (State S A) :=
  match qDeleteAll s._applications s.heap with
  | some heap1 => some { s with heap := heap1, _applications := [] }
  | none => none

/-- The member `void loadList()`: clear, then one descriptor per internal entry, then one per
external entry. -/
def loadList (lib : Library S A) (s : State S A) : Option (State S A) :=
  match clearApplications s with
  | none => none
  | some s0 =>
    let s1 := (lib.getRef s0.library).foldl
      (fun st entry => appendNew st (internalDescriptor lib entry)) s0
    let s2 := (lib.getExternals s1.library).foldl
      (fun st entry => appendNew st (externalDescriptor entry)) s1
    some s2

/-- The property getter `QQmlListProperty<AppLoadApplication> applications()`: rebuild the
list, then hand out a list property whose object is the adapter. -/
def applications (lib : Library S A) (s : State S A) : Option (QQmlListProperty × State S A) :=
  match loadList lib s with
  | none => none
  | some s1 => some ({ objectIsAdapter := true }, s1)

/-- The statement `emit applicationsChanged()`: the signal goes out and every connected slot
runs, in connection order. -/
def emitApplicationsChanged (slots : List (Slot S A)) (s : State S A) : Option (State S A) :=
  slots.foldlM (fun st slot => slot st)
    { s with trace := s.trace ++ [Event.applicationsChanged] }

/-- The method `int reloadList()`: reload in the collaborator, emit the signal, return the count. -/
def reloadList (lib : Library S A) (slots : List (Slot S A)) (s : State S A) :
    Option (Int × State S A) :=
  let count := lib.loadApplications s.library
  let s1 : State S A :=
    { s with library := count.2, trace := s.trace ++ [Event.loadApplications] }
  match emitApplicationsChanged slots s1 with
  | none => none
  | some s2 => some (count.1, s2)

/-- The method `bool isFrontendRunningFor(const QString &appID)`. -/
def isFrontendRunningFor (lib : Library S A) (appID : String) (s : State S A) :
    Bool × State S A :=
  match lib.get s.library appID with
  | some app => (app.isFrontendRunning, s)
  | none => (false, s)

/-- The method `qint64 launchExternal(const QString &appID, int qtfbKey)`. -/
def launchExternal (lib : Library S A) (appID : String) (qtfbKey : Int) (s : State S A) :
    Int × State S A :=
  match find (lib.getExternals s.library) appID with
  | some ref =>
    let r := lib.launch ref.2 qtfbKey s.library
    (r.1, { s with library := r.2, trace := s.trace ++ [Event.launch ref.2 qtfbKey] })
  | none => (-1, s)

/-- The method `void terminateExternal(qint64 pid)`. -/
def terminateExternal (lib : Library S A) (pid : Int) (s : State S A) : State S A :=
  { s with library := lib.terminateExternal pid s.library,
           trace := s.trace ++ [Event.terminateExternal pid] }

/-! ## The list-property callbacks -/

/-- The callback `static void appendApplication(list, app)`. -/
def appendApplication (list : QQmlListProperty) (app : Ptr) (s : State S A) : State S A :=
  if list.objectIsAdapter then { s with _applications := s._applications ++ [app] } else s

/-- The callback `static qsizetype applicationCount(list)`. -/
def applicationCount (list : QQmlListProperty) (s : State S A) : Int :=
  if list.objectIsAdapter then (s._applications.length : Int) else 0

/-- The callback `static AppLoadApplication *applicationAt(list, index)`; `QList::at` outside
the list is undefined behaviour (`none`). -/
def applicationAt (list : QQmlListProperty) (index : Int) (s : State S A) : Option Ptr :=
  if list.objectIsAdapter then
    (if index < 0 then none else s._applications[index.toNat]?)
  else some none

/-- The callback `static void clearApplications(list)`. -/
def clearApplicationsCallback (list : QQmlListProperty) (s : State S A) : Option (State S A) :=
  if list.objectIsAdapter then
    match qDeleteAll s._applications s.heap with
    | some heap1 => some { s with heap := heap1, _applications := [] }
    | none => none
  else some s

/-! ## Reading the adapter's state -/

/-- The contents of the objects the adapter's sequence points to, in order. -/
def descriptors (s : State S A) : List (Option (AppLoadApplication A)) :=
  s._applications.map (deref s.heap)

/-- The descriptors `loadList` builds from the two registries as they are in state `st`:
internal entries first, then external entries, each group in the registry's order. -/
def projection (lib : Library S A) (st : S) : List (AppLoadApplication A) :=
  (lib.getRef st).map (internalDescriptor lib) ++ (lib.getExternals st).map externalDescriptor

/-- A pointer the adapter may hold: `nullptr`, or a live object. -/
def ptrOk (heap : Heap A) (p : Ptr) : Bool :=
  match p with
  | none => true
  | some a => isLive heap a

/-- The adapter's memory discipline: every non-null pointer of `_applications` is a live
object, and no object is pointed to twice. It is what `qDeleteAll(_applications)` needs to be
defined. -/
def Valid (s : State S A) : Prop :=
  (∀ p ∈ s._applications, ptrOk s.heap p = true) ∧
    (s._applications.filterMap (fun p => p)).Nodup

instance (s : State S A) : Decidable (Valid s) :=
  inferInstanceAs (Decidable ((∀ p ∈ s._applications, ptrOk s.heap p = true) ∧
    (s._applications.filterMap (fun p => p)).Nodup))

/-- The state `loadList` ends in when `qDeleteAll` has left the heap `heap1`: the new objects
fill the cells after `heap1`, and `_applications` points to them in order. -/
def rebuilt (lib : Library S A) (s : State S A) (heap1 : Heap A) : State S A :=
  { s with heap := heap1 ++ (projection lib s.library).map some,
           _applications :=
             (List.range' heap1.length (projection lib s.library).length).map some }

/-- The slot of a view bound to the `applications` property: when notified it reads the
property again, which runs the getter. -/
def readApplications (lib : Library S A) : Slot S A :=
  fun st => (applications lib st).map Prod.snd

/-- A call of the presentation layer on the adapter: a read of the `applications` property or
one of the four invokable methods. `reloadList bound` is `reloadList()` with a view bound to
the property (`bound = true`) or with nothing connected to the signal. -/
inductive Call where
  | applications
  | reloadList (bound : Bool)
  | isFrontendRunningFor (appID : String)
  | launchExternal (appID : String) (qtfbKey : Int)
  | terminateExternal (pid : Int)
deriving DecidableEq

/-- The state after one call, its return value dropped. -/
def Call.run (lib : Library S A) : Call → State S A → Option (State S A)
  | Call.applications, s => (AppLoad.applications lib s).map Prod.snd
  | Call.reloadList bound, s =>
    (AppLoad.reloadList lib (if bound then [readApplications lib] else []) s).map Prod.snd
  | Call.isFrontendRunningFor appID, s => some (AppLoad.isFrontendRunningFor lib appID s).2
  | Call.launchExternal appID qtfbKey, s => some (AppLoad.launchExternal lib appID qtfbKey s).2
  | Call.terminateExternal pid, s => some (AppLoad.terminateExternal lib pid s)

/-- The state after a sequence of calls, first to last. -/
def runCalls (lib : Library S A) : List Call → State S A → Option (State S A)
  | [], s => some s
  | c :: cs, s =>
    match c.run lib s with
    | some s1 => runCalls lib cs s1
    | none => none

/-! ## The example scenario -/

/-- Modelled from the spec: the two aspect-ratio policies the example scenario names, the
automatic one and 16:9. `appload::library::AspectRatio` is declared in `library.h`, which is
not among the sources; only its member `AUTO` appears in `AppLibrary.h`. -/
inductive ExampleRatio where
  | AUTO
  | R16_9
deriving DecidableEq

/-- Modelled from the spec: `aspectRatioToString` on the two policies of the example scenario,
which reads them as "auto" and "16:9"; the function is declared in `library.h`. -/
def exampleRatioToString : ExampleRatio → String
  | ExampleRatio.AUTO => "auto"
  | ExampleRatio.R16_9 => "16:9"

/-- State of the example collaborator: the two registries, the internal applications a reload
will find, the applications whose frontend runs, and the next process id. -/
structure ExampleState where
  internals : List (String × LoadedApplication)
  externals : List (String × ExternalApplication ExampleRatio)
  discoverable : List (String × LoadedApplication)
  running : List String
  nextPid : Int
deriving DecidableEq

/-- Modelled from the spec: a collaborator for the example scenario. A reload replaces the
internal registry by what it finds and returns how many it found, lookup searches the internal
registry, and a launch hands out the next process id. `library.h` is not among the sources. -/
def exampleLibrary : Library ExampleState ExampleRatio where
  loadApplications st := ((st.discoverable.length : Int), { st with internals := st.discoverable })
  getRef st := st.internals
  getExternals st := st.externals
  get st appID :=
    (find st.internals appID).map (fun _ => { isFrontendRunning := st.running.contains appID })
  launch _ _ st := (st.nextPid, { st with nextPid := st.nextPid + 1 })
  terminateExternal _ st := st
  AUTO := ExampleRatio.AUTO
  aspectRatioToString := exampleRatioToString

/-- The internal application of the example scenario. -/
def calcApp : LoadedApplication :=
  { getID := "calc", getAppName := "Calculator", getIconPath := "calc.png",
    supportsScaling := true, canHaveMultipleFrontends := false }

/-- The external application of the example scenario: frame-buffer-backed, 16:9, windowed mode
disabled. -/
def gameApp : ExternalApplication ExampleRatio :=
  { getAppName := "Game", getIconPath := "game.png", isQTFB := true,
    getAspectRatio := ExampleRatio.R16_9, disablesWindowedMode := true }

/-- The example registry, with a freshly constructed adapter: nothing allocated, empty
`_applications`. -/
def exampleLoaded : State ExampleState ExampleRatio :=
  { library := { internals := [("calc", calcApp)], externals := [("game", gameApp)],
                 discoverable := [("calc", calcApp)], running := ["calc"], nextPid := 4242 }
    trace := []
    heap := []
    _applications := [] }

/-- The example before the collaborator's first reload: the internal registry is still empty,
and the adapter has been read once, so it holds the one descriptor of "game". -/
def exampleStale : State ExampleState ExampleRatio :=
  { library := { internals := [], externals := [("game", gameApp)],
                 discoverable := [("calc", calcApp)], running := [], nextPid := 4242 }
    trace := []
    heap := [some (externalDescriptor ("game", gameApp))]
    _applications := [some 0] }

/-- A descriptor object made by the presentation layer, not by the adapter. -/
def foreignDescriptor : AppLoadApplication ExampleRatio :=
  { _id := "", _name := "", _icon := "", _supportsScaling := false,
    _canHaveMultipleFrontends := false, _externalType := 0,
    _aspectRatio := ExampleRatio.AUTO, _disablesWindowedMode := false }

/-- The example registry, with a fresh adapter and one descriptor object (object 0) that the
presentation layer has made. -/
def exampleForeign : State ExampleState ExampleRatio :=
  { library := exampleLoaded.library
    trace := []
    heap := [some foreignDescriptor]
    _applications := [] }

/-- The example registry, an adapter that has been read once, and since then the presentation
layer has appended its own descriptor (object 0) through the list property. -/
def exampleAppended : State ExampleState ExampleRatio :=
  { library := exampleLoaded.library
    trace := []
    heap := [some foreignDescriptor, some (internalDescriptor exampleLibrary ("calc", calcApp)),
             some (externalDescriptor ("game", gameApp))]
    _applications := [some 1, some 2, some 0] }

/-- The state `reloadList` is in after the reload and the emitted signal, before any slot has
run. -/
def notified (lib : Library S A) (s : State S A) : State S A :=
  { library := (lib.loadApplications s.library).2
    trace := s.trace ++ [Event.loadApplications, Event.applicationsChanged]
    heap := s.heap
    _applications := s._applications }

/-! ## Helper lemmas -/

theorem isLive_set_ne (heap : Heap A) (a b : Nat) (h : a ≠ b) :
    isLive (heap.set a none) b = isLive heap b := by
  unfold isLive
  rw [List.getElem?_set_ne h]

theorem isLive_lt (heap : Heap A) (a : Nat) (h : isLive heap a = true) : a < heap.length := by
  unfold isLive at h
  by_contra hlt
  rw [List.getElem?_eq_none (by omega)] at h
  simp at h

theorem qDeleteAll_spec (ps : List Ptr) (heap : Heap A)
    (hlive : ∀ p ∈ ps, ptrOk heap p = true)
    (hnd : (ps.filterMap (fun p => p)).Nodup) :
    ∃ heap1, qDeleteAll ps heap = some heap1 ∧ heap1.length = heap.length ∧
      (∀ a, some a ∈ ps → heap1[a]? = some none) ∧
      (∀ a, some a ∉ ps → heap1[a]? = heap[a]?) := by
  induction ps generalizing heap with
  | nil => exact ⟨heap, rfl, rfl, by simp, by simp⟩
  | cons p ps ih =>
    cases p with
    | none =>
      have h1 : ∀ q ∈ ps, ptrOk heap q = true := fun q hq => hlive q (List.mem_cons_of_mem _ hq)
      have h2 : (ps.filterMap (fun p => p)).Nodup := by simpa using hnd
      obtain ⟨heap1, e1, e2, e3, e4⟩ := ih heap h1 h2
      refine ⟨heap1, by simpa [qDeleteAll, delete] using e1, e2, ?_, ?_⟩
      · intro a ha
        simp at ha
        exact e3 a ha
      · intro a ha
        simp at ha
        exact e4 a ha
    | some a =>
      have hla : isLive heap a = true := by
        have := hlive (some a) (List.mem_cons_self _ _)
        simpa [ptrOk] using this
      have hnd2 : a ∉ ps.filterMap (fun p => p) ∧ (ps.filterMap (fun p => p)).Nodup := by
        simpa using hnd
      have hanot : some a ∉ ps := by
        intro hmem
        exact hnd2.1 (by simpa using hmem)
      have h1 : ∀ q ∈ ps, ptrOk (heap.set a none) q = true := by
        intro q hq
        cases q with
        | none => rfl
        | some b =>
          have hne : a ≠ b := by
            rintro rfl
            exact hanot hq
          have := hlive (some b) (List.mem_cons_of_mem _ hq)
          simpa [ptrOk, isLive_set_ne heap a b hne] using this
      obtain ⟨heap1, e1, e2, e3, e4⟩ := ih (heap.set a none) h1 hnd2.2
      refine ⟨heap1, by simpa [qDeleteAll, delete, hla] using e1, by simpa using e2, ?_, ?_⟩
      · intro b hb
        rcases List.mem_cons.1 hb with hb | hb
        · have hba : b = a := by simpa using hb
          subst hba
          rw [e4 b hanot]
          simp [List.getElem?_set_self, isLive_lt heap b hla]
        · exact e3 b hb
      · intro b hb
        have hb1 : ¬ b = a := by
          intro h
          exact hb (by simp [h])
        have hb2 : some b ∉ ps := fun h => hb (List.mem_cons_of_mem _ h)
        rw [e4 b hb2, List.getElem?_set_ne (Ne.symm hb1)]

theorem foldl_appendNew (ds : List (AppLoadApplication A)) (s : State S A) :
    ds.foldl appendNew s =
      { s with heap := s.heap ++ ds.map some,
               _applications := s._applications ++ (List.range' s.heap.length ds.length).map some } := by
  induction ds generalizing s with
  | nil => simp
  | cons d ds ih =>
    rw [List.foldl_cons, ih]
    simp [appendNew, List.range'_succ]

theorem deref_fresh (pre : Heap A) (ds : List (AppLoadApplication A)) :
    ((List.range' pre.length ds.length).map some).map (deref (pre ++ ds.map some)) =
      ds.map some := by
  induction ds generalizing pre with
  | nil => simp
  | cons d ds ih =>
    have h := ih (pre ++ [some d])
    simp only [List.length_append, List.length_singleton, List.append_assoc,
      List.singleton_append] at h
    have h0 : deref (pre ++ some d :: ds.map some) (some pre.length) = some d := by
      simp only [deref]
      rw [List.getElem?_append_right (le_refl _)]
      simp
    simp only [List.length_cons, List.range'_succ, List.map_cons, h, h0]

theorem foldl_appendNew_map {E : Type} (f : E → AppLoadApplication A) (l : List E)
    (s : State S A) :
    l.foldl (fun st entry => appendNew st (f entry)) s = (l.map f).foldl appendNew s := by
  rw [List.foldl_map]

theorem loadList_of_qDeleteAll (lib : Library S A) (s : State S A) (heap1 : Heap A)
    (h : qDeleteAll s._applications s.heap = some heap1) :
    loadList lib s = some (rebuilt lib s heap1) := by
  unfold loadList clearApplications
  rw [h]
  simp only [foldl_appendNew_map, foldl_appendNew, rebuilt, projection]
  simp only [List.append_assoc, List.map_append, List.length_map, List.length_append,
    List.nil_append, List.length_nil]
  have hr : ∀ n m k : Nat, (List.range' n m).map some ++ (List.range' (n + m) k).map some =
      ((List.range' n (m + k)).map some : List Ptr) := by
    intro n m k
    rw [← List.map_append, List.range'_append_1, Nat.add_comm k m]
  rw [hr]

theorem loadList_spec (lib : Library S A) (s : State S A) (hv : Valid s) :
    ∃ heap1, qDeleteAll s._applications s.heap = some heap1 ∧ heap1.length = s.heap.length ∧
      (∀ a, some a ∈ s._applications → heap1[a]? = some none) ∧
      (∀ a, some a ∉ s._applications → heap1[a]? = s.heap[a]?) ∧
      loadList lib s = some (rebuilt lib s heap1) := by
  obtain ⟨heap1, e1, e2, e3, e4⟩ := qDeleteAll_spec s._applications s.heap hv.1 hv.2
  exact ⟨heap1, e1, e2, e3, e4, loadList_of_qDeleteAll lib s heap1 e1⟩

theorem descriptors_rebuilt (lib : Library S A) (s : State S A) (heap1 : Heap A) :
    descriptors (rebuilt lib s heap1) = (projection lib s.library).map some := by
  unfold descriptors rebuilt
  exact deref_fresh heap1 (projection lib s.library)

theorem valid_rebuilt (lib : Library S A) (s : State S A) (heap1 : Heap A) :
    Valid (rebuilt lib s heap1) := by
  constructor
  · intro p hp
    simp only [rebuilt, List.mem_map, List.mem_range'_1] at hp
    obtain ⟨a, ⟨h1, h2⟩, rfl⟩ := hp
    simp only [ptrOk, isLive, rebuilt]
    rw [List.getElem?_append_right h1, List.getElem?_map,
      List.getElem?_eq_getElem (by omega)]
    rfl
  · simp only [rebuilt, List.filterMap_map]
    have : ((fun p : Ptr => p) ∘ some) = (some : Nat → Option Nat) := rfl
    rw [this, List.filterMap_some]
    exact List.nodup_range' _ _

theorem find_eq_none {V : Type} (m : List (String × V)) (key : String)
    (h : ∀ entry ∈ m, entry.1 ≠ key) : find m key = none := by
  unfold find
  rw [List.find?_eq_none]
  intro entry hentry
  simpa using h entry hentry

theorem find_of_mem {V : Type} (m : List (String × V)) (key : String) (v : V)
    (hkeys : (m.map Prod.fst).Nodup) (hmem : (key, v) ∈ m) : find m key = some (key, v) := by
  induction m with
  | nil => simp at hmem
  | cons entry m ih =>
    rw [List.map_cons, List.nodup_cons] at hkeys
    rcases List.mem_cons.1 hmem with h | h
    · subst h
      simp [find]
    · have hne : entry.1 ≠ key := by
        intro heq
        apply hkeys.1
        rw [heq]
        exact List.mem_map_of_mem Prod.fst h
      have := ih hkeys.2 h
      unfold find at this ⊢
      rw [List.find?_cons_of_neg _ (by simpa using hne)]
      exact this

theorem valid_of_eq (s t : State S A) (hheap : t.heap = s.heap)
    (happs : t._applications = s._applications) (hv : Valid s) : Valid t := by
  unfold Valid at hv ⊢
  rw [hheap, happs]
  exact hv

theorem loadList_full (lib : Library S A) (s : State S A) (hv : Valid s) :
    ∃ s1, loadList lib s = some s1 ∧ Valid s1 ∧ s1.library = s.library ∧ s1.trace = s.trace ∧
      descriptors s1 = (projection lib s.library).map some ∧
      s1._applications.length = (projection lib s.library).length ∧
      s1._applications.Nodup ∧
      (∀ p ∈ s._applications, p ∉ s1._applications) ∧
      (∀ a, some a ∈ s._applications → isLive s1.heap a = false) := by
  obtain ⟨heap1, _, hlen, hdead, _, hload⟩ := loadList_spec lib s hv
  refine ⟨rebuilt lib s heap1, hload, valid_rebuilt lib s heap1, rfl, rfl,
    descriptors_rebuilt lib s heap1, by simp [rebuilt], ?_, ?_, ?_⟩
  · exact (List.nodup_range' _ _).map (Option.some_injective Nat)
  · intro p hp hnew
    simp only [rebuilt, List.mem_map, List.mem_range'_1] at hnew
    obtain ⟨a, ⟨h1, _⟩, rfl⟩ := hnew
    have hlive : isLive s.heap a = true := by simpa [ptrOk] using hv.1 (some a) hp
    have := isLive_lt s.heap a hlive
    omega
  · intro a ha
    have hlive : isLive s.heap a = true := by simpa [ptrOk] using hv.1 (some a) ha
    have hlt : a < heap1.length := by
      have := isLive_lt s.heap a hlive
      omega
    simp only [rebuilt, isLive]
    rw [List.getElem?_append_left hlt, hdead a ha]

theorem reloadList_nil (lib : Library S A) (s : State S A) :
    reloadList lib [] s = some ((lib.loadApplications s.library).1, notified lib s) := by
  simp [reloadList, emitApplicationsChanged, notified]

theorem reloadList_single (lib : Library S A) (slot : Slot S A) (s : State S A) :
    reloadList lib [slot] s =
      (slot (notified lib s)).map (fun s2 => ((lib.loadApplications s.library).1, s2)) := by
  simp only [reloadList, emitApplicationsChanged, notified, List.foldlM, List.append_assoc,
    List.singleton_append]
  cases slot _ <;> rfl

theorem readApplications_eq (lib : Library S A) (s : State S A) :
    readApplications lib s = loadList lib s := by
  unfold readApplications applications
  cases loadList lib s <;> rfl

theorem run_valid (lib : Library S A) (c : Call) (s : State S A) (hv : Valid s) :
    ∃ s1, c.run lib s = some s1 ∧ Valid s1 := by
  cases c with
  | applications =>
    obtain ⟨s1, h1, h2, _⟩ := loadList_full lib s hv
    exact ⟨s1, by simp [Call.run, applications, h1], h2⟩
  | reloadList bound =>
    have hv1 : Valid (notified lib s) := valid_of_eq s _ rfl rfl hv
    cases bound with
    | false => exact ⟨notified lib s, by simp [Call.run, reloadList_nil], hv1⟩
    | true =>
      obtain ⟨s2, h3, h4, _⟩ := loadList_full lib _ hv1
      exact ⟨s2, by simp [Call.run, reloadList_single, readApplications_eq, h3], h4⟩
  | isFrontendRunningFor appID =>
    refine ⟨_, rfl, ?_⟩
    unfold isFrontendRunningFor
    cases lib.get s.library appID <;> exact hv
  | launchExternal appID qtfbKey =>
    refine ⟨_, rfl, ?_⟩
    unfold launchExternal
    cases find (lib.getExternals s.library) appID with
    | none => exact hv
    | some ref => exact valid_of_eq s _ rfl rfl hv
  | terminateExternal pid =>
    exact ⟨_, rfl, valid_of_eq s _ rfl rfl hv⟩

theorem runCalls_valid (lib : Library S A) (calls : List Call) (s : State S A) (hv : Valid s) :
    ∃ s1, runCalls lib calls s = some s1 ∧ Valid s1 := by
  induction calls generalizing s with
  | nil => exact ⟨s, rfl, hv⟩
  | cons c cs ih =>
    obtain ⟨s1, h1, hv1⟩ := run_valid lib c s hv
    obtain ⟨s2, h2, hv2⟩ := ih s1 hv1
    exact ⟨s2, by simp [runCalls, h1, h2], hv2⟩

theorem runCalls_append (lib : Library S A) (calls : List Call) (c : Call) (s s0 : State S A)
    (h : runCalls lib calls s = some s0) :
    runCalls lib (calls ++ [c]) s = c.run lib s0 := by
  induction calls generalizing s with
  | nil =>
    simp only [runCalls, Option.some.injEq] at h
    subst h
    simp only [List.nil_append, runCalls]
    cases c.run lib s <;> rfl
  | cons d ds ih =>
    simp only [runCalls, List.cons_append] at h ⊢
    cases hd : d.run lib s with
    | none => simp [hd] at h
    | some s1 =>
      simp only [hd] at h ⊢
      exact ih s1 h

theorem dead_of_deleted (heap : Heap A) (a : Nat) (h : heap[a]? = some none) :
    isLive heap a = false := by
  simp [isLive, h]

theorem projection_internal (lib : Library S A) (st : S) (i : Nat)
    (hi : i < (lib.getRef st).length) :
    ((projection lib st).map some)[i]? =
      some (some (internalDescriptor lib ((lib.getRef st).get ⟨i, hi⟩))) := by
  unfold projection
  rw [List.getElem?_map, List.getElem?_append_left (by simpa using hi), List.getElem?_map,
    List.getElem?_eq_getElem hi]
  rfl

theorem projection_external (lib : Library S A) (st : S) (j : Nat)
    (hj : j < (lib.getExternals st).length) :
    ((projection lib st).map some)[(lib.getRef st).length + j]? =
      some (some (externalDescriptor ((lib.getExternals st).get ⟨j, hj⟩))) := by
  unfold projection
  rw [List.getElem?_map, List.getElem?_append_right (by simp), List.getElem?_map]
  simp only [List.length_map, Nat.add_sub_cancel_left]
  rw [List.getElem?_eq_getElem hj]
  rfl

/-! ## Launching and querying -/

/-- C1: for an application identifier that is no key of the external registry, and any
frame-buffer key, `launchExternal` returns -1 and ends in the state it started in: the record
of outside effects has no new launch, and the descriptor sequence, the heap and the
collaborator's state with both registries are unchanged. -/
theorem launchExternal_unknown (lib : Library S A) (appID : String) (qtfbKey : Int)
    (s : State S A) (habsent : ∀ entry ∈ lib.getExternals s.library, entry.1 ≠ appID) :
    launchExternal lib appID qtfbKey s = (-1, s) := by
  unfold launchExternal
  rw [find_eq_none _ _ habsent]

theorem launchExternal_unknown_witness :
    (∀ entry ∈ exampleLibrary.getExternals exampleLoaded.library, entry.1 ≠ "missing") ∧
      launchExternal exampleLibrary "missing" 7 exampleLoaded = (-1, exampleLoaded) :=
  ⟨by decide, launchExternal_unknown exampleLibrary "missing" 7 exampleLoaded (by decide)⟩

/-- C2: for an application identifier under which the external registry stores the entry `e`,
and any frame-buffer key `k`, `launchExternal` returns exactly what `e`'s launch operation
returns for `k`, the one new outside effect is that launch of `e` with `k`, and the
collaborator is left in the state that launch produced. -/
theorem launchExternal_known (lib : Library S A) (appID : String)
    (e : ExternalApplication A) (qtfbKey : Int) (s : State S A)
    (hkeys : ((lib.getExternals s.library).map Prod.fst).Nodup)
    (hmem : (appID, e) ∈ lib.getExternals s.library) :
    launchExternal lib appID qtfbKey s =
      ((lib.launch e qtfbKey s.library).1,
        { s with library := (lib.launch e qtfbKey s.library).2,
                 trace := s.trace ++ [Event.launch e qtfbKey] }) := by
  unfold launchExternal
  rw [find_of_mem _ _ _ hkeys hmem]

theorem launchExternal_known_witness :
    ((exampleLibrary.getExternals exampleLoaded.library).map Prod.fst).Nodup ∧
      ("game", gameApp) ∈ exampleLibrary.getExternals exampleLoaded.library ∧
      launchExternal exampleLibrary "game" 7 exampleLoaded =
        (4242, { exampleLoaded with
                  library := { exampleLoaded.library with nextPid := 4243 },
                  trace := [Event.launch gameApp 7] }) :=
  ⟨by decide, by decide,
    launchExternal_known exampleLibrary "game" gameApp 7 exampleLoaded (by decide) (by decide)⟩

/-- C3: `isFrontendRunningFor` returns false when the collaborator's lookup finds no
application for the identifier and the found application's frontend-running answer otherwise;
it is total and ends in the state it started in. -/
theorem isFrontendRunningFor_spec (lib : Library S A) (appID : String) (s : State S A) :
    isFrontendRunningFor lib appID s =
      (match lib.get s.library appID with
        | none => false
        | some app => app.isFrontendRunning,
       s) := by
  unfold isFrontendRunningFor
  cases lib.get s.library appID <;> rfl

/-! ## Refreshing -/

/-- C4, the claim as stated fails: in the example whose internal registry is empty until the
reload, `reloadList` with no slot connected returns the count 1 and leaves the adapter with
the one descriptor it had, while the registries after the reload project to two. -/
theorem reloadList_keeps_sequence :
    ∃ r, reloadList exampleLibrary [] exampleStale = some r ∧ r.1 = 1 ∧
      descriptors r.2 = [some (externalDescriptor ("game", gameApp))] ∧
      (projection exampleLibrary r.2.library).map some =
        [some (internalDescriptor exampleLibrary ("calc", calcApp)),
         some (externalDescriptor ("game", gameApp))] ∧
      descriptors r.2 ≠ (projection exampleLibrary r.2.library).map some :=
  ⟨_, rfl, rfl, rfl, rfl, by decide⟩

/-- C4, amended: `reloadList` triggers the collaborator's reload, emits `applicationsChanged`
and returns the count the reload reported, whatever slots are connected; it does not rebuild
the descriptor sequence itself, so with no slot connected the sequence and the heap are as
before. The rebuild is the getter's: when a view bound to the property reads it on the
notification, the sequence the adapter holds when `reloadList` returns is the projection of
the two registries as they are after the reload. -/
theorem reloadList_spec (lib : Library S A) (s : State S A) (hv : Valid s) :
    reloadList lib [] s = some ((lib.loadApplications s.library).1, notified lib s) ∧
      (∀ slots r, reloadList lib slots s = some r → r.1 = (lib.loadApplications s.library).1) ∧
      ∃ s2, reloadList lib [readApplications lib] s =
          some ((lib.loadApplications s.library).1, s2) ∧
        s2.library = (lib.loadApplications s.library).2 ∧
        descriptors s2 = (projection lib s2.library).map some := by
  refine ⟨reloadList_nil lib s, ?_, ?_⟩
  · intro slots r hr
    unfold reloadList at hr
    cases hemit : emitApplicationsChanged slots
        { s with library := (lib.loadApplications s.library).2,
                 trace := s.trace ++ [Event.loadApplications] } with
    | none => simp [hemit] at hr
    | some s2 =>
      simp only [hemit, Option.some.injEq] at hr
      rw [← hr]
  · have hv1 : Valid (notified lib s) := valid_of_eq s _ rfl rfl hv
    obtain ⟨s2, h1, _, h2, _, h3, _⟩ := loadList_full lib _ hv1
    refine ⟨s2, by simp [reloadList_single, readApplications_eq, h1], h2, ?_⟩
    rw [h3, h2]

theorem reloadList_spec_witness :
    Valid exampleStale ∧
      reloadList exampleLibrary [] exampleStale = some (1, notified exampleLibrary exampleStale) ∧
      ∃ s2, reloadList exampleLibrary [readApplications exampleLibrary] exampleStale =
          some (1, s2) ∧
        descriptors s2 = [some (internalDescriptor exampleLibrary ("calc", calcApp)),
                          some (externalDescriptor ("game", gameApp))] := by
  obtain ⟨h1, _, s2, h2, h3, h4⟩ := reloadList_spec exampleLibrary exampleStale (by decide)
  refine ⟨by decide, h1, s2, h2, ?_⟩
  rw [h4, h3]
  rfl

/-- C5, the claim as stated fails: in the example whose internal registry is empty until the
reload, after `reloadList` with no slot connected the list property reports one descriptor,
while the internal and the external registry together hold two entries. -/
theorem applicationCount_stale :
    ∃ r, reloadList exampleLibrary [] exampleStale = some r ∧
      applicationCount { objectIsAdapter := true } r.2 = 1 ∧
      ((exampleLibrary.getRef r.2.library).length : Int) +
        ((exampleLibrary.getExternals r.2.library).length : Int) = 2 ∧
      applicationCount { objectIsAdapter := true } r.2 ≠
        ((exampleLibrary.getRef r.2.library).length : Int) +
          ((exampleLibrary.getExternals r.2.library).length : Int) :=
  ⟨_, rfl, rfl, rfl, by decide⟩

/-- C5, amended: after any sequence of calls on the adapter, from any prior contents of the
descriptor sequence that respect the memory discipline, the number of descriptors equals the
size of the internal registry plus the size of the external registry whenever the sequence
has just been rebuilt: after `reloadList` with a view bound to the property, where the sizes
are those of the registries after the reload, and after a read of the property, where the
registries are as before the read. `reloadList` with no slot connected reloads the registries
and leaves the number of descriptors as it was. -/
theorem applicationCount_after_refresh (lib : Library S A) (s : State S A) (hv : Valid s)
    (calls : List Call) :
    ∃ s0, runCalls lib calls s = some s0 ∧
      (∃ s1, reloadList lib [readApplications lib] s0 =
          some ((lib.loadApplications s0.library).1, s1) ∧
        runCalls lib (calls ++ [Call.reloadList true]) s = some s1 ∧
        s1.library = (lib.loadApplications s0.library).2 ∧
        applicationCount { objectIsAdapter := true } s1 =
          ((lib.getRef s1.library).length : Int) +
            ((lib.getExternals s1.library).length : Int)) ∧
      (∃ s1, applications lib s0 = some ({ objectIsAdapter := true }, s1) ∧
        runCalls lib (calls ++ [Call.applications]) s = some s1 ∧
        s1.library = s0.library ∧
        applicationCount { objectIsAdapter := true } s1 =
          ((lib.getRef s1.library).length : Int) +
            ((lib.getExternals s1.library).length : Int)) ∧
      (∃ s1, reloadList lib [] s0 = some ((lib.loadApplications s0.library).1, s1) ∧
        runCalls lib (calls ++ [Call.reloadList false]) s = some s1 ∧
        s1.library = (lib.loadApplications s0.library).2 ∧
        applicationCount { objectIsAdapter := true } s1 =
          applicationCount { objectIsAdapter := true } s0) := by
  obtain ⟨s0, h0, hv0⟩ := runCalls_valid lib calls s hv
  have hvn : Valid (notified lib s0) := valid_of_eq s0 _ rfl rfl hv0
  obtain ⟨s1, a1, _, a3, _, _, a6, _⟩ := loadList_full lib (notified lib s0) hvn
  obtain ⟨s2, b1, _, b3, _, _, b6, _⟩ := loadList_full lib s0 hv0
  have hbound : reloadList lib [readApplications lib] s0 =
      some ((lib.loadApplications s0.library).1, s1) := by
    simp [reloadList_single, readApplications_eq, a1]
  have hread : applications lib s0 = some ({ objectIsAdapter := true }, s2) := by
    simp [applications, b1]
  refine ⟨s0, h0, ⟨s1, hbound, ?_, a3, ?_⟩, ⟨s2, hread, ?_, b3, ?_⟩,
    ⟨notified lib s0, reloadList_nil lib s0, ?_, rfl, rfl⟩⟩
  · rw [runCalls_append lib calls _ s s0 h0]
    simp [Call.run, hbound]
  · rw [a3]
    simp [applicationCount, a6, projection, notified]
  · rw [runCalls_append lib calls _ s s0 h0]
    simp [Call.run, hread]
  · rw [b3]
    simp [applicationCount, b6, projection]
  · rw [runCalls_append lib calls _ s s0 h0]
    simp [Call.run, reloadList_nil]

theorem applicationCount_after_refresh_witness :
    Valid exampleStale ∧
      ∃ s1, runCalls exampleLibrary
          [Call.reloadList false, Call.launchExternal "game" 7, Call.reloadList true]
          exampleStale = some s1 ∧
        applicationCount { objectIsAdapter := true } s1 =
          ((exampleLibrary.getRef s1.library).length : Int) +
            ((exampleLibrary.getExternals s1.library).length : Int) := by
  obtain ⟨_, _, ⟨s1, _, h2, _, h4⟩, _⟩ :=
    applicationCount_after_refresh exampleLibrary exampleStale (by decide)
      [Call.reloadList false, Call.launchExternal "game" 7]
  exact ⟨by decide, s1, h2, h4⟩

/-! ## The rebuilt sequence -/

/-- C6: in the sequence a rebuild produces, position `i` holds the descriptor of the `i`-th
entry of the internal registry and position `(size of the internal registry) + j` holds the
descriptor of the `j`-th entry of the external registry, each registry in its own iteration
order; so every internal descriptor has a smaller index than every external one, and the
sequence has no other positions. -/
theorem loadList_order (lib : Library S A) (s : State S A) (hv : Valid s) :
    ∃ s1, loadList lib s = some s1 ∧
      (descriptors s1).length =
        (lib.getRef s.library).length + (lib.getExternals s.library).length ∧
      (∀ (i : Nat) (hi : i < (lib.getRef s.library).length),
        (descriptors s1)[i]? =
          some (some (internalDescriptor lib ((lib.getRef s.library).get ⟨i, hi⟩)))) ∧
      (∀ (j : Nat) (hj : j < (lib.getExternals s.library).length),
        (descriptors s1)[(lib.getRef s.library).length + j]? =
          some (some (externalDescriptor ((lib.getExternals s.library).get ⟨j, hj⟩)))) := by
  obtain ⟨s1, h1, _, _, _, h2, _⟩ := loadList_full lib s hv
  refine ⟨s1, h1, by simp [h2, projection], ?_, ?_⟩
  · intro i hi
    rw [h2]
    exact projection_internal lib s.library i hi
  · intro j hj
    rw [h2]
    exact projection_external lib s.library j hj

theorem loadList_order_witness :
    Valid exampleAppended ∧
      ∃ s1, loadList exampleLibrary exampleAppended = some s1 ∧
        (descriptors s1).length = 2 ∧
        (descriptors s1)[0]? = some (some (internalDescriptor exampleLibrary ("calc", calcApp))) ∧
        (descriptors s1)[1]? = some (some (externalDescriptor ("game", gameApp))) := by
  obtain ⟨s1, h1, h2, h3, h4⟩ := loadList_order exampleLibrary exampleAppended (by decide)
  exact ⟨by decide, s1, h1, h2, h3 0 (by decide), h4 0 (by decide)⟩

/-- C7: for every entry of the internal registry, the descriptor a rebuild puts at the entry's
position has externalType 0, an aspect ratio that reads as `aspectRatioToString(AUTO)`,
disablesWindowedMode false, and id, name, icon, scaling support and multi-frontend flag equal
to what the entry's getters return. -/
theorem loadList_internal (lib : Library S A) (s : State S A) (hv : Valid s) :
    ∃ s1, loadList lib s = some s1 ∧
      ∀ (i : Nat) (hi : i < (lib.getRef s.library).length),
        ∃ d, (descriptors s1)[i]? = some (some d) ∧
          d.externalType = 0 ∧
          d.aspectRatio lib = lib.aspectRatioToString lib.AUTO ∧
          d.disablesWindowedMode = false ∧
          d.id = ((lib.getRef s.library).get ⟨i, hi⟩).2.getID ∧
          d.name = ((lib.getRef s.library).get ⟨i, hi⟩).2.getAppName ∧
          d.icon = ((lib.getRef s.library).get ⟨i, hi⟩).2.getIconPath ∧
          d.supportsScaling = ((lib.getRef s.library).get ⟨i, hi⟩).2.supportsScaling ∧
          d.canHaveMultipleFrontends =
            ((lib.getRef s.library).get ⟨i, hi⟩).2.canHaveMultipleFrontends := by
  obtain ⟨s1, h1, _, _, _, h2, _⟩ := loadList_full lib s hv
  refine ⟨s1, h1, ?_⟩
  intro i hi
  refine ⟨internalDescriptor lib ((lib.getRef s.library).get ⟨i, hi⟩), ?_,
    rfl, rfl, rfl, rfl, rfl, rfl, rfl, rfl⟩
  rw [h2]
  exact projection_internal lib s.library i hi

theorem loadList_internal_witness :
    Valid exampleLoaded ∧
      ∃ s1, loadList exampleLibrary exampleLoaded = some s1 ∧
        ∃ d, (descriptors s1)[0]? = some (some d) ∧
          d.externalType = 0 ∧ d.aspectRatio exampleLibrary = "auto" ∧
          d.disablesWindowedMode = false ∧ d.id = "calc" ∧ d.name = "Calculator" ∧
          d.icon = "calc.png" ∧ d.supportsScaling = true ∧
          d.canHaveMultipleFrontends = false := by
  obtain ⟨s1, h1, h2⟩ := loadList_internal exampleLibrary exampleLoaded (by decide)
  exact ⟨by decide, s1, h1, h2 0 (by decide)⟩

/-- C8: for every entry of the external registry, the descriptor a rebuild puts at the entry's
position (after the internal ones) has the registry key as id, externalType 2 when the entry
reports frame-buffer backing and 1 otherwise, the entry's own aspect ratio and the entry's own
windowed-mode-disable flag; and in the example registry (internal "calc", external
frame-buffer "game" with 16:9 and windowed mode disabled) the rebuilt sequence reads as
calc, 0, "auto", false followed by game, 2, "16:9", true. -/
theorem loadList_external (lib : Library S A) (s : State S A) (hv : Valid s) :
    (∃ s1, loadList lib s = some s1 ∧
      ∀ (j : Nat) (hj : j < (lib.getExternals s.library).length),
        ∃ d, (descriptors s1)[(lib.getRef s.library).length + j]? = some (some d) ∧
          d.id = ((lib.getExternals s.library).get ⟨j, hj⟩).1 ∧
          d.externalType =
            (if ((lib.getExternals s.library).get ⟨j, hj⟩).2.isQTFB then 2 else 1) ∧
          d._aspectRatio = ((lib.getExternals s.library).get ⟨j, hj⟩).2.getAspectRatio ∧
          d.aspectRatio lib = lib.aspectRatioToString
            ((lib.getExternals s.library).get ⟨j, hj⟩).2.getAspectRatio ∧
          d.disablesWindowedMode =
            ((lib.getExternals s.library).get ⟨j, hj⟩).2.disablesWindowedMode) ∧
    (loadList exampleLibrary exampleLoaded).map (fun s1 => (descriptors s1).map (Option.map
        (fun d => (d.id, d.externalType, d.aspectRatio exampleLibrary, d.disablesWindowedMode)))) =
      some [some ("calc", 0, "auto", false), some ("game", 2, "16:9", true)] := by
  refine ⟨?_, rfl⟩
  obtain ⟨s1, h1, _, _, _, h2, _⟩ := loadList_full lib s hv
  refine ⟨s1, h1, ?_⟩
  intro j hj
  refine ⟨externalDescriptor ((lib.getExternals s.library).get ⟨j, hj⟩), ?_,
    rfl, ?_, rfl, rfl, rfl⟩
  · rw [h2]
    exact projection_external lib s.library j hj
  · simp only [AppLoadApplication.externalType, externalDescriptor, EXTERNAL_QTFB,
      EXTERNAL_NOGUI]

theorem loadList_external_witness :
    Valid exampleLoaded ∧
      ∃ s1, loadList exampleLibrary exampleLoaded = some s1 ∧
        ∃ d, (descriptors s1)[1]? = some (some d) ∧
          d.id = "game" ∧ d.externalType = 2 ∧ d._aspectRatio = ExampleRatio.R16_9 ∧
          d.aspectRatio exampleLibrary = "16:9" ∧ d.disablesWindowedMode = true := by
  obtain ⟨⟨s1, h1, h2⟩, _⟩ := loadList_external exampleLibrary exampleLoaded (by decide)
  exact ⟨by decide, s1, h1, h2 0 (by decide)⟩

/-- C9: a rebuild releases the previous batch. The sequence it produces is the same from any
two states whose registries agree, whatever the adapter held before; no pointer the adapter
held before the rebuild (one appended through the list property included) is in the new
sequence, and every object it pointed to has been deleted; the new sequence points to no
object twice; and a second rebuild over the unchanged registries yields a sequence that reads
the same, has the same length, points to no object twice and shares no object with the
first. -/
theorem loadList_releases (lib : Library S A) (s t : State S A) (hv : Valid s) (ht : Valid t)
    (hint : lib.getRef t.library = lib.getRef s.library)
    (hext : lib.getExternals t.library = lib.getExternals s.library) :
    ∃ s1 s2 t1, loadList lib s = some s1 ∧ loadList lib s1 = some s2 ∧
      loadList lib t = some t1 ∧
      descriptors t1 = descriptors s1 ∧
      (∀ p ∈ s._applications, p ∉ s1._applications) ∧
      (∀ a, some a ∈ s._applications → isLive s1.heap a = false) ∧
      s1._applications.Nodup ∧
      descriptors s2 = descriptors s1 ∧
      s2._applications.length = s1._applications.length ∧
      s2._applications.Nodup ∧
      (∀ p ∈ s1._applications, p ∉ s2._applications) ∧
      (∀ a, some a ∈ s1._applications → isLive s2.heap a = false) := by
  obtain ⟨s1, a1, a2, a3, _, a5, a6, a7, a8, a9⟩ := loadList_full lib s hv
  obtain ⟨s2, b1, _, _, _, b5, b6, b7, b8, b9⟩ := loadList_full lib s1 a2
  obtain ⟨t1, c1, _, _, _, c5, _⟩ := loadList_full lib t ht
  refine ⟨s1, s2, t1, a1, b1, c1, ?_, a8, a9, a7, ?_, ?_, b7, b8, b9⟩
  · rw [c5, a5, projection, projection, hint, hext]
  · rw [b5, a5, a3]
  · rw [b6, a6, a3]

theorem loadList_releases_witness :
    Valid exampleAppended ∧ Valid exampleLoaded ∧
      ∃ s1 s2 t1, loadList exampleLibrary exampleAppended = some s1 ∧
        loadList exampleLibrary s1 = some s2 ∧
        loadList exampleLibrary exampleLoaded = some t1 ∧
        descriptors t1 = descriptors s1 ∧
        some 0 ∉ s1._applications ∧
        isLive s1.heap 0 = false ∧ isLive s1.heap 1 = false ∧ isLive s1.heap 2 = false ∧
        s1._applications.Nodup ∧
        descriptors s2 = descriptors s1 ∧
        s2._applications.Nodup := by
  obtain ⟨s1, s2, t1, h1, h2, h3, h4, h5, h6, h7, h8, _, h10, _⟩ :=
    loadList_releases exampleLibrary exampleAppended exampleLoaded (by decide) (by decide)
      rfl rfl
  exact ⟨by decide, by decide, s1, s2, t1, h1, h2, h3, h4, h5 (some 0) (by decide),
    h6 0 (by decide), h6 1 (by decide), h6 2 (by decide), h7, h8, h10⟩

/-! ## The list property -/

/-- C10, the claim as stated fails: the list property a read of `applications` hands out
carries an append and a clear callback. In the example, appending the presentation layer's
own descriptor (object 0) through it makes the adapter's sequence one longer, and clearing
through it empties the sequence, with no rebuild in between. -/
theorem list_property_writes :
    ∃ r, applications exampleLibrary exampleForeign = some r ∧
      r.2._applications = [some 1, some 2] ∧
      (appendApplication r.1 (some 0) r.2)._applications = [some 1, some 2, some 0] ∧
      (appendApplication r.1 (some 0) r.2)._applications ≠ r.2._applications ∧
      (clearApplicationsCallback r.1 r.2).map (fun st => st._applications) = some [] :=
  ⟨_, rfl, rfl, rfl, by decide, rfl⟩

/-- C10, amended: through the list property the count and element callbacks only read the
adapter's sequence; the append callback puts the given pointer at the end of the sequence and
changes nothing else; the clear callback deletes every descriptor the sequence points to,
leaves every other object as it is and empties the sequence. The adapter's own methods
`isFrontendRunningFor`, `launchExternal`, `terminateExternal` and `reloadList` (with no slot
connected) leave the sequence and the descriptor objects as they are, and a read of the
property deletes the descriptors held and rebuilds the sequence from the registries. -/
theorem list_property_effects (lib : Library S A) (list : QQmlListProperty) (app : Ptr)
    (appID : String) (qtfbKey pid : Int) (s : State S A) (hv : Valid s)
    (hlist : list.objectIsAdapter = true) :
    applicationCount list s = (s._applications.length : Int) ∧
      (∀ i : Nat, applicationAt list (i : Int) s = s._applications[i]?) ∧
      appendApplication list app s = { s with _applications := s._applications ++ [app] } ∧
      (∃ s1, clearApplicationsCallback list s = some s1 ∧ s1._applications = [] ∧
        s1.library = s.library ∧ s1.trace = s.trace ∧ s1.heap.length = s.heap.length ∧
        (∀ a, some a ∈ s._applications → isLive s1.heap a = false) ∧
        (∀ a, some a ∉ s._applications → s1.heap[a]? = s.heap[a]?)) ∧
      (isFrontendRunningFor lib appID s).2 = s ∧
      ((launchExternal lib appID qtfbKey s).2.heap = s.heap ∧
        (launchExternal lib appID qtfbKey s).2._applications = s._applications) ∧
      ((terminateExternal lib pid s).heap = s.heap ∧
        (terminateExternal lib pid s)._applications = s._applications) ∧
      (∃ s1, reloadList lib [] s = some ((lib.loadApplications s.library).1, s1) ∧
        s1.heap = s.heap ∧ s1._applications = s._applications) ∧
      (∃ s1, applications lib s = some ({ objectIsAdapter := true }, s1) ∧
        s1.library = s.library ∧ s1.trace = s.trace ∧
        descriptors s1 = (projection lib s.library).map some ∧
        (∀ p ∈ s._applications, p ∉ s1._applications) ∧
        (∀ a, some a ∈ s._applications → isLive s1.heap a = false)) := by
  obtain ⟨heap1, hdel, hlen, hdead, hkeep⟩ :=
    qDeleteAll_spec s._applications s.heap hv.1 hv.2
  obtain ⟨s1, h1, _, h3, h4, h5, _, _, h8, h9⟩ := loadList_full lib s hv
  refine ⟨by simp [applicationCount, hlist], ?_, by simp [appendApplication, hlist],
    ⟨{ s with heap := heap1, _applications := [] },
      by simp [clearApplicationsCallback, hlist, hdel], rfl, rfl, rfl, hlen,
      fun a ha => dead_of_deleted heap1 a (hdead a ha), hkeep⟩, ?_, ?_, ⟨rfl, rfl⟩,
    ⟨notified lib s, reloadList_nil lib s, rfl, rfl⟩,
    ⟨s1, by simp [applications, h1], h3, h4, h5, h8, h9⟩⟩
  · intro i
    simp [applicationAt, hlist]
  · unfold isFrontendRunningFor
    cases lib.get s.library appID <;> rfl
  · unfold launchExternal
    cases find (lib.getExternals s.library) appID <;> exact ⟨rfl, rfl⟩

theorem list_property_effects_witness :
    Valid exampleAppended ∧
      appendApplication { objectIsAdapter := true } none exampleAppended =
        { exampleAppended with _applications := [some 1, some 2, some 0, none] } ∧
      (∃ s1, clearApplicationsCallback { objectIsAdapter := true } exampleAppended = some s1 ∧
        s1._applications = [] ∧ isLive s1.heap 0 = false ∧ isLive s1.heap 1 = false ∧
        isLive s1.heap 2 = false) ∧
      (launchExternal exampleLibrary "game" 7 exampleAppended).2.heap = exampleAppended.heap ∧
      (terminateExternal exampleLibrary 0 exampleAppended).heap = exampleAppended.heap := by
  obtain ⟨_, _, h3, ⟨s1, c1, c2, _, _, _, c6, _⟩, _, h6, h7, _⟩ :=
    list_property_effects exampleLibrary { objectIsAdapter := true } none "game" 7 0
      exampleAppended (by decide) rfl
  exact ⟨by decide, h3, ⟨s1, c1, c2, c6 0 (by decide), c6 1 (by decide), c6 2 (by decide)⟩,
    h6.1, h7.1⟩

end AppLoad
